import Mathlib

/-
Verification of the resolution-and-annotation pipeline of the X-geo-block
repository (src/content.js).  The JavaScript is shallowly embedded: the
mutable module state (location cache, request queue, processing set, rate
state) becomes explicit state passed through pure functions, DOM elements
become records of the fields the code reads and writes, and the
asynchronous drain loop becomes a labelled transition relation whose
events are the atomic synchronous sections between suspension points.
-/

namespace XGeoBlock

/-! ## Basic string helpers

Lean counterparts of the JavaScript string operations used by
content.js: first-path-segment extraction (the regex match at
content.js:371), lower-casing, substring containment
(String.prototype.includes) and the all-digits test (the regex at
content.js:411). -/

/-- Model of `href.match(/^\/([^\/\?]+)/)` (content.js:371): the href must
start with a slash and the captured group is the maximal nonempty run of
characters that are neither a slash nor a question mark. -/
def firstPathSegment (href : String) : Option String :=
  match href.toList with
  | '/' :: rest =>
      let seg := rest.takeWhile (fun c => c ≠ '/' ∧ c ≠ '?')
      if seg.isEmpty then none else some (String.mk seg)
  | _ => none

/-- Model of `String.prototype.includes`: `subOccurs needle hay` holds when
`needle` occurs contiguously inside `hay`. -/
def subOccurs (needle : List Char) : List Char → Bool
  | [] => needle.isEmpty
  | c :: t => needle.isPrefixOf (c :: t) || subOccurs needle t

/-- Model of `String.prototype.startsWith`, computed on character lists. -/
def strStartsWith (s pre : String) : Bool :=
  pre.toList.isPrefixOf s.toList

/-- Model of `String.prototype.trim`, stripping whitespace from both
ends of the character list. -/
def strTrim (s : String) : String :=
  String.mk
    (((s.toList.dropWhile Char.isWhitespace).reverse.dropWhile
        Char.isWhitespace).reverse)

/-- Character membership in a string (`String.prototype.includes` with a
one-character needle, used for the slash test at content.js:434). -/
def strContainsChar (s : String) (c : Char) : Bool :=
  s.toList.contains c

/-- Model of `String.prototype.toLowerCase` via per-character lowering. -/
def lowerStr (s : String) : String :=
  String.mk (s.toList.map Char.toLower)

/-- Model of the test `potentialUsername.match(/^\d+$/)` (content.js:411):
nonempty and made of digits only. -/
def isNumericId (u : String) : Bool :=
  decide (u.length > 0) && u.toList.all Char.isDigit

/-! ## Attribute cache (content.js:1-4, 99-204, 336-361)

`locationCache` is a JavaScript `Map` from screen name to an entry
`{ location, expiry, cachedAt }`; it is modelled as an ordered
association list.  Values held in the in-memory map can in principle be
legacy raw strings (the code at content.js:342 guards for that), so the
map value type distinguishes the two shapes. -/

/-- In-memory cache entry `{ location: string|null, expiry, cachedAt }`
(content.js:118-121, 189-193).  `location = none` models JavaScript
`null`. -/
structure CacheEntry where
  location : Option String
  expiry : Nat
  cachedAt : Nat
deriving DecidableEq, Repr

/-- A value held in the in-memory `locationCache` map: either a proper
entry object or a legacy raw string (guarded for at content.js:342). -/
inductive MemValue where
  | str (s : String)
  | obj (e : CacheEntry)
deriving DecidableEq, Repr

/-- The location carried by a map value, as read at content.js:342:
`(typeof cached === 'object' && cached !== null) ? cached.location : cached`. -/
def memLocation : MemValue → Option String
  | .str s => some s
  | .obj e => e.location

/-- A value found in durable storage under `twitter_location_cache`
(content.js:114-126): a legacy raw string, or an object whose `expiry`
field may be absent (modelled with `Option`). -/
inductive StoredValue where
  | str (s : String)
  | obj (location : Option String) (expiry : Option Nat) (cachedAt : Nat)
deriving DecidableEq, Repr

/-- The in-memory `locationCache` map, as an ordered association list
keyed by screen name. -/
abbrev LocationCache := List (String × MemValue)

/-- Model of `locationCache.get` / `locationCache.has`. -/
def lookupAssoc (cache : LocationCache) (u : String) : Option MemValue :=
  match cache.find? (fun p => p.1 == u) with
  | some p => some p.2
  | none => none

/-- Model of `locationCache.set`: replace in place when the key is
present, append otherwise (JavaScript `Map` keeps insertion order). -/
def insertAssoc (cache : LocationCache) (u : String) (v : MemValue) : LocationCache :=
  if (cache.find? (fun p => p.1 == u)).isSome then
    cache.map (fun p => if p.1 == u then (p.1, v) else p)
  else
    cache ++ [(u, v)]

/-- Model of `locationCache.delete`. -/
def eraseAssoc (cache : LocationCache) (u : String) : LocationCache :=
  cache.filter (fun p => !(p.1 == u))

/-- `CACHE_EXPIRY_DAYS * 24 * 60 * 60 * 1000` (content.js:4, 120, 152, 191). -/
def cacheExpiryMs : Nat := 30 * 24 * 60 * 60 * 1000

/-- Per-stored-value step of `loadCache` (content.js:114-127): a legacy
string is upgraded with a fresh expiry; an object is kept only when its
`expiry` field is present, strictly in the future, and its `location` is
not null; everything else is dropped. -/
def loadCacheValue (now : Nat) (v : StoredValue) : Option MemValue :=
  match v with
  | .str s => some (.obj ⟨some s, now + cacheExpiryMs, now⟩)
  | .obj loc exp cat =>
      match exp with
      | some e => if now < e ∧ loc ≠ none then some (.obj ⟨loc, e, cat⟩) else none
      | none => none

/-- Model of `loadCache` (content.js:99-139): the in-memory map produced
from the persisted object, dropping expired, malformed and null-location
entries and upgrading legacy strings. -/
def loadCache (now : Nat) (stored : List (String × StoredValue)) : LocationCache :=
  stored.filterMap (fun p => (loadCacheValue now p.2).map (fun v => (p.1, v)))

/-- JavaScript truthiness of a `string|null` value (`data.location` at
content.js:156): false for null and for the empty string. -/
def isTruthy : Option String → Bool
  | none => false
  | some s => !(s == "")

/-- Model of `saveCache` (content.js:142-178): the object written to
durable storage.  Entry objects are kept only when their `location` is
truthy; legacy string values are rewritten as fresh objects. -/
def saveCache (now : Nat) (cache : LocationCache) : List (String × CacheEntry) :=
  cache.filterMap (fun p =>
    match p.2 with
    | .obj e => if isTruthy e.location then some (p.1, e) else none
    | .str s => some (p.1, ⟨some s, now + cacheExpiryMs, now⟩))

/-- Model of `saveCacheEntry` (content.js:181-204): write a fresh entry
for the screen name into the in-memory map (the debounced flush is a
separate durable write of `saveCache`). -/
def saveCacheEntry (now : Nat) (u : String) (loc : Option String)
    (cache : LocationCache) : LocationCache :=
  insertAssoc cache u (.obj ⟨loc, now + cacheExpiryMs, now⟩)

/-- Outcome of the synchronous part of `getUserLocation`
(content.js:336-361): either a cache hit resolved immediately, or the
request was pushed onto `requestQueue`. -/
inductive LookupResult where
  | cachedHit (loc : String)
  | queued
deriving DecidableEq, Repr

/-- Model of `getUserLocation` (content.js:336-361).  On a cached
non-null location the value is returned and the cache is untouched; on a
cached null the entry is deleted and the request falls through to the
queue; on an absent key the request is queued.  Note that the cache
check consults only the `location` field, never `expiry`. -/
def getUserLocation (cache : LocationCache) (u : String) :
    LocationCache × LookupResult :=
  match lookupAssoc cache u with
  | some v =>
      match memLocation v with
      | some l => (cache, .cachedHit l)
      | none => (eraseAssoc cache u, .queued)
  | none => (cache, .queued)

/-! ## Rate-controlled scheduler (content.js:6-16, 227-333)

The module-level rate state and the request queue drain loop.  The loop
interleaves with response handlers on the single JavaScript thread; its
atomic synchronous sections become the events of a labelled transition
relation. -/

/-- `INITIAL_REQUEST_INTERVAL` (content.js:11). -/
def INITIAL_REQUEST_INTERVAL : Nat := 300

/-- `MAX_REQUEST_INTERVAL` (content.js:13). -/
def MAX_REQUEST_INTERVAL : Nat := 10000

/-- `MAX_CONCURRENT_REQUESTS` (content.js:14). -/
def MAX_CONCURRENT_REQUESTS : Nat := 2

/-- JavaScript `location || null` (content.js:299, 313): the empty string
is falsy and collapses to null. -/
def orNull : Option String → Option String
  | some s => if s == "" then none else some s
  | none => none

/-- The two ways a pending `makeLocationRequest` promise can settle
(content.js:280-333): a correlated `__locationResponse` message arrives,
or the 10 second timeout fires first. -/
inductive RequestOutcome where
  | response (location : Option String) (isRateLimited : Bool)
  | timeout
deriving DecidableEq, Repr

/-- The values produced when a `makeLocationRequest` promise settles: the
resolved location, the new `currentRequestInterval`, and the updated
in-memory cache. -/
structure SettleResult where
  resolved : Option String
  interval : Nat
  cache : LocationCache
deriving DecidableEq, Repr

/-- The `currentRequestInterval` update performed by the response handler
(content.js:301-310): on a soft rate limit the interval doubles, capped
at `MAX_REQUEST_INTERVAL`; otherwise it decreases by 100 when above the
floor `INITIAL_REQUEST_INTERVAL` and is left alone at the floor. -/
def updateIntervalOnResponse (isRateLimited : Bool) (interval : Nat) : Nat :=
  if isRateLimited then min MAX_REQUEST_INTERVAL (interval * 2)
  else if INITIAL_REQUEST_INTERVAL < interval then
    max INITIAL_REQUEST_INTERVAL (interval - 100)
  else interval

/-- Model of the settlement of one lookup request (content.js:285-331).
On a response that is not rate limited the location (or null) is written
to the cache and the interval recovers by 100 ms down to the floor; on a
soft rate limit nothing is cached and the interval doubles up to the
cap; on a timeout the promise resolves null and neither the interval nor
the cache changes. -/
def settleRequest (now : Nat) (screenName : String) (out : RequestOutcome)
    (interval : Nat) (cache : LocationCache) : SettleResult :=
  match out with
  | .response loc isRateLimited =>
      { resolved := orNull loc
        interval := updateIntervalOnResponse isRateLimited interval
        cache :=
          if isRateLimited then cache
          else saveCacheEntry now screenName (orNull loc) cache }
  | .timeout => { resolved := none, interval := interval, cache := cache }

/-- The control point of the drain loop.  `idle` covers every moment at
which no pacing sleep is pending (`isProcessingQueue` false, or true but
between iterations); `sleeping iv` is the suspension inside the pacing
`await` of content.js:253-255, whose duration was computed from the
value `iv` that `currentRequestInterval` had *before* the await, so the
timer fires once `lastRequestTime + iv ≤ now`.  The interval may be
reassigned by a response handler while the loop sleeps; the captured
`iv` does not change with it. -/
inductive DrainPhase where
  | idle
  | sleeping (iv : Nat)
deriving DecidableEq, Repr

/-- The scheduler state: the FIFO `requestQueue` (screen names), the
module counters `activeRequests`, `lastRequestTime` and
`currentRequestInterval`, the current clock value (`Date.now()`), and
the drain-loop control point.  `startLog` is a history variable with no
counterpart in the code: each request start prepends the pair (elapsed
time since the previous request start, interval captured when the
pacing wait for this dequeue was computed); it only records what
happened and constrains no event. -/
structure SchedState where
  queue : List String
  activeRequests : Nat
  lastRequestTime : Nat
  currentInterval : Nat
  now : Nat
  phase : DrainPhase
  startLog : List (Nat × Nat)
deriving DecidableEq, Repr

/-- The initial module state (content.js:7-15): empty queue, no active
requests, interval at the floor, no pending sleep, empty history. -/
def initSchedState : SchedState :=
  { queue := [], activeRequests := 0, lastRequestTime := 0
    currentInterval := INITIAL_REQUEST_INTERVAL, now := 0
    phase := .idle, startLog := [] }

/-- Atomic events of the drain loop and its environment
(content.js:227-277), split at the suspension points.  `enqueue` is the
push at content.js:358.  `beginIter` is the head of one while-loop
iteration (content.js:248-255): it fires only when the queue is
nonempty and `activeRequests < MAX_CONCURRENT_REQUESTS`, and enters the
pacing sleep capturing the interval in effect at that moment.  `start`
is the resumption after the sleep (content.js:257-259): once the
captured deadline `lastRequestTime + iv` has passed it dequeues
unconditionally — the code rechecks nothing after the await — then
increments `activeRequests` and stamps `lastRequestTime`, logging the
observed gap.  `finish` is the `finally` handler decrementing
`activeRequests` (content.js:269-273); `adjustInterval` is a response
handler reassigning `currentRequestInterval` (content.js:303, 309),
allowed in any phase, in particular during the sleep; `tick` advances
the clock. -/
inductive SchedStep : SchedState → SchedState → Prop
  | enqueue (s : SchedState) (u : String) :
      SchedStep s { s with queue := s.queue ++ [u] }
  | tick (s : SchedState) (d : Nat) :
      SchedStep s { s with now := s.now + d }
  | adjustInterval (s : SchedState) (i : Nat) :
      SchedStep s { s with currentInterval := i }
  | beginIter (s : SchedState)
      (hq : s.queue ≠ [])
      (hc : s.activeRequests < MAX_CONCURRENT_REQUESTS)
      (hph : s.phase = .idle) :
      SchedStep s { s with phase := .sleeping s.currentInterval }
  | start (s : SchedState) (u : String) (rest : List String) (iv : Nat)
      (hq : s.queue = u :: rest)
      (hph : s.phase = .sleeping iv)
      (hp : s.lastRequestTime + iv ≤ s.now) :
      SchedStep s { s with queue := rest,
                           activeRequests := s.activeRequests + 1,
                           lastRequestTime := s.now,
                           phase := .idle,
                           startLog :=
                             (s.now - s.lastRequestTime, iv) :: s.startLog }
  | finish (s : SchedState) (h : 0 < s.activeRequests) :
      SchedStep s { s with activeRequests := s.activeRequests - 1 }

/-- States reachable from the initial module state by drain-loop events. -/
inductive SchedReachable : SchedState → Prop
  | init : SchedReachable initSchedState
  | step (s t : SchedState) (h : SchedReachable s) (hs : SchedStep s t) :
      SchedReachable t

/-- The inductive invariant of the drain loop: the concurrency bound,
the facts guaranteed while the loop sleeps (the while condition was
checked before the await and only this loop dequeues or increments), and
pacing of every start so far with respect to its captured interval. -/
def SchedInv (s : SchedState) : Prop :=
  s.activeRequests ≤ MAX_CONCURRENT_REQUESTS ∧
  (∀ iv : Nat, s.phase = .sleeping iv →
    s.activeRequests < MAX_CONCURRENT_REQUESTS ∧ s.queue ≠ []) ∧
  (∀ p ∈ s.startLog, p.2 ≤ p.1)

/-! ## Identity extractor (content.js:364-465)

A document fragment is modelled by the data `extractUsername` actually
inspects: whether a `[data-testid="UserName"]` / `"User-Name"` container
exists, the fragment anchors in document order (each with its `href`,
trimmed text content and whether it sits inside such a container), and
the text content scanned for `@mention` patterns. -/

/-- An anchor element as seen by `extractUsername`: its `href` attribute,
its trimmed `textContent`, and whether `closest` finds a
`UserName`/`User-Name` container above it. -/
structure Link where
  href : String
  text : String
  inUserNameContainer : Bool
deriving DecidableEq, Repr

/-- A document fragment as seen by `extractUsername`. -/
structure Fragment where
  hasUserNameContainer : Bool
  links : List Link
  text : String
deriving DecidableEq, Repr

/-- The deny-list used inside the UserName container (content.js:375). -/
def excludedRoutesUserName : List String :=
  ["home", "explore", "notifications", "messages", "i", "compose", "search",
   "settings", "bookmarks", "lists", "communities"]

/-- The deny-list used on the broader any-link search (content.js:405). -/
def excludedRoutesAll : List String :=
  ["home", "explore", "notifications", "messages", "i", "compose", "search",
   "settings", "bookmarks", "lists", "communities", "hashtag"]

/-- The filter applied to a path segment found inside the UserName
container (content.js:374-381): not an excluded route, not starting with
`hashtag` or `search`, and of length strictly between 0 and 20. -/
def userNameContainerCandidate (u : String) : Bool :=
  !(excludedRoutesUserName.contains u) &&
  !(strStartsWith u "hashtag") &&
  !(strStartsWith u "search") &&
  decide (u.length > 0) &&
  decide (u.length < 20)

/-- The priority-1 scan over the links of the UserName container
(content.js:368-384): the first link whose path segment passes
`userNameContainerCandidate` wins. -/
def findInUserNameContainer : List Link → Option String
  | [] => none
  | l :: ls =>
      match firstPathSegment l.href with
      | some u =>
          if userNameContainerCandidate u then some u
          else findInUserNameContainer ls
      | none => findInUserNameContainer ls

/-- The skip test of the broader search (content.js:405-407): equal to or
starting with any route of the extended deny-list. -/
def broaderExcluded (u : String) : Bool :=
  excludedRoutesAll.any (fun route => u == route || strStartsWith u route)

/-- The per-link acceptance tests of the broader search
(content.js:415-445), in source order: the trimmed link text starts with
`@`; the lowered link text equals the lowered name with or without `@`;
the link sits inside a UserName container and the segment is short and
slash-free; or the trimmed text is `@` followed by exactly the name
(subsumed by the first test, kept for faithfulness).  Every test returns
the same candidate, so they are flattened into a disjunction. -/
def broaderLinkMatches (l : Link) (u : String) : Bool :=
  let text := strTrim l.text
  let linkText := lowerStr text
  let usernameLower := lowerStr u
  strStartsWith text "@" ||
  (linkText == usernameLower || linkText == "@" ++ usernameLower) ||
  (l.inUserNameContainer &&
    (decide (u.length > 0) && decide (u.length < 20) && !(strContainsChar u '/'))) ||
  (!(text == "") && strStartsWith text "@" && text.drop 1 == u)

/-- The broader scan over every fragment link (content.js:388-446),
carrying the `seenUsernames` dedup set.  A candidate is skipped when
already seen, route-excluded, status-shaped or purely numeric; it is
returned when one of the `broaderLinkMatches` tests accepts it. -/
def findInAllLinks (seen : List String) : List Link → Option String
  | [] => none
  | l :: ls =>
      match firstPathSegment l.href with
      | none => findInAllLinks seen ls
      | some u =>
          if seen.contains u then findInAllLinks seen ls
          else if broaderExcluded u then findInAllLinks (u :: seen) ls
          else if subOccurs "status".toList u.toList || isNumericId u then
            findInAllLinks (u :: seen) ls
          else if broaderLinkMatches l u then some u
          else findInAllLinks (u :: seen) ls

/-- Scanner for `textContent.matchAll(/@([a-zA-Z0-9_]+)/g)`
(content.js:450): at each `@` the maximal run of word characters is
captured when nonempty, and scanning resumes after it. -/
def extractMentions : List Char → List String
  | [] => []
  | '@' :: rest =>
      let tok := rest.takeWhile (fun c => c.isAlphanum || c == '_')
      if tok.isEmpty then extractMentions rest
      else String.mk tok :: extractMentions (rest.drop tok.length)
  | _ :: rest => extractMentions rest
  termination_by cs => cs.length
  decreasing_by
    all_goals simp_all [List.length_drop]
    omega

/-- The last-resort mention scan (content.js:448-462): for each `@token`
of the text, the first link whose href is `/token` or starts with
`/token?` is looked up, and the token is returned only when that link
sits inside a UserName container. -/
def findByMention (links : List Link) : List String → Option String
  | [] => none
  | u :: us =>
      match links.find? (fun l =>
          l.href == "/" ++ u || strStartsWith l.href ("/" ++ u ++ "?")) with
      | some l => if l.inUserNameContainer then some u else findByMention links us
      | none => findByMention links us

/-- Model of `extractUsername` (content.js:364-465): the three passes in
priority order.  The `a[href^="/"]` selector is the explicit filter on
hrefs starting with a slash. -/
def extractUsername (frag : Fragment) : Option String :=
  let fromContainer :=
    if frag.hasUserNameContainer then
      findInUserNameContainer
        ((frag.links.filter (fun l => l.inUserNameContainer)).filter
          (fun l => strStartsWith l.href "/"))
    else none
  match fromContainer with
  | some u => some u
  | none =>
      match findInAllLinks []
          (frag.links.filter (fun l => strStartsWith l.href "/")) with
      | some u => some u
      | none => findByMention frag.links (extractMentions frag.text.toList)

/-! ## Annotation engine (content.js:22-49, 600-996) and page scan
(content.js:999-1066)

A page element is modelled by the dataset markers and the DOM facts the
engine reads and writes.  The engine state carries the module-level
`processingUsernames` set, the in-memory cache and the request queue. -/

/-- The values of `dataset.flagAdded`: absent, `'processing'`,
`'waiting'`, `'true'`, `'blocked'` or `'failed'`. -/
inductive FlagState where
  | unset | processing | waiting | done | blocked | failed
deriving DecidableEq, Repr

/-- A tweet/user-cell element as seen by the engine and the scan:
`flagAdded` is `dataset.flagAdded`; `observed` is
`dataset.observed === 'true'`; `registered` records whether the element
is currently watched by `visibilityObserver`; `markerCount` and
`shimmerCount` count `[data-twitter-flag]` and
`[data-twitter-flag-shimmer]` descendants; `hasUserName` is the presence
of a `UserName`/`User-Name` descendant; `isArticle` is
`tagName === 'ARTICLE'`; `hasUsernameLink` abstracts the four
link-finding strategies of content.js:753-819 succeeding;
`hasTweetContainer` is `closest('article[data-testid="tweet"]')`
existing and `tweetBlocked` its `data-twitter-blocked` attribute. -/
structure Elem where
  flagAdded : FlagState
  observed : Bool
  registered : Bool
  markerCount : Nat
  shimmerCount : Nat
  hasUserName : Bool
  isArticle : Bool
  hasUsernameLink : Bool
  hasTweetContainer : Bool
  tweetBlocked : Bool
deriving DecidableEq, Repr

/-- The module state read and written by `addFlagToUsername`: the
`processingUsernames` set (content.js:49), the in-memory cache and the
scheduler queue. -/
structure EngineState where
  processing : List String
  cache : LocationCache
  requestQueue : List String
deriving DecidableEq, Repr

/-- Result of the synchronous prefix of `addFlagToUsername`: the updated
module state, the updated element, whether execution went past the early
returns of content.js:602-617, and the `getUserLocation` outcome when it
did. -/
structure PhaseAResult where
  st : EngineState
  el : Elem
  proceeding : Bool
  res : Option LookupResult
deriving DecidableEq, Repr

/-- The synchronous prefix of `addFlagToUsername` (content.js:601-661),
up to the first genuine suspension.  `flagAfterWait` is the value of
`dataset.flagAdded` observed after the 500 ms sleep of the deferral
branch (it may have been changed concurrently).  On the proceed path the
element is marked `processing`, the identity enters
`processingUsernames`, the shimmer is inserted when the UserName
container exists, and `getUserLocation` either hits the cache or pushes
the identity onto `requestQueue`. -/
def addFlagPhaseA (st : EngineState) (el : Elem) (flagAfterWait : FlagState)
    (u : String) : PhaseAResult :=
  if el.flagAdded == .done then ⟨st, el, false, none⟩
  else if st.processing.contains u then
    if flagAfterWait == .done then ⟨st, { el with flagAdded := .done }, false, none⟩
    else ⟨st, { el with flagAdded := .waiting }, false, none⟩
  else
    let st1 : EngineState := { st with processing := u :: st.processing }
    let el1 : Elem := { el with flagAdded := .processing }
    let el2 : Elem :=
      if el1.hasUserName then { el1 with shimmerCount := el1.shimmerCount + 1 }
      else el1
    let g := getUserLocation st1.cache u
    let st2 : EngineState :=
      { st1 with
        cache := g.1
        requestQueue :=
          match g.2 with
          | .queued => st1.requestQueue ++ [u]
          | .cachedHit _ => st1.requestQueue }
    ⟨st2, el2, true, some g.2⟩

/-- Removal of the loading shimmer (content.js:664-667): a decrement when
this call inserted one and it is still attached.  Later removal attempts
on the same span are no-ops because the span is already detached. -/
def removeShimmer (el : Elem) (shimIns : Bool) : Elem :=
  if shimIns && decide (el.shimmerCount > 0) then
    { el with shimmerCount := el.shimmerCount - 1 }
  else el

/-- The block-list membership test (content.js:676-679):
`locationLower.includes(country.toLowerCase())` for some entry. -/
def locationBlocked (blockedCountries : List String) (loc : String) : Bool :=
  blockedCountries.any (fun c =>
    subOccurs (lowerStr c).toList (lowerStr loc).toList)

/-- The flag-insertion tail of `addFlagToUsername` (content.js:739-984):
fail when the flag emoji table has no entry for the location or no
username link is found; return `done` without inserting when a
`[data-twitter-flag]` marker already exists (content.js:838-846); fail
when the UserName container is missing; otherwise insert exactly one
marker span when insertion succeeds (`insertOk` abstracts the DOM
insertion strategies not raising). -/
def addFlagInsert (el : Elem) (loc : String) (flagFor : String → Option String)
    (insertOk : Bool) : Elem :=
  match flagFor loc with
  | none => { el with flagAdded := .failed }
  | some _ =>
      if !el.hasUsernameLink then { el with flagAdded := .failed }
      else if decide (el.markerCount > 0) then { el with flagAdded := .done }
      else if !el.hasUserName then { el with flagAdded := .failed }
      else if insertOk then
        { el with markerCount := el.markerCount + 1, flagAdded := .done }
      else { el with flagAdded := .failed }

/-- The continuation of `addFlagToUsername` after the location resolves
(content.js:662-996): remove the shimmer, fail on a falsy location,
otherwise check the block list.  A blocked location with a tweet
container hides the tweet (or is skipped when already blocked) without
inserting a marker; without a tweet container control falls through to
the flag-insertion tail, as it does for unblocked locations. -/
def addFlagResolve (el0 : Elem) (blockedCountries : List String)
    (flagFor : String → Option String) (insertOk : Bool)
    (location : Option String) : Elem :=
  let shimIns := el0.hasUserName
  let el := removeShimmer el0 shimIns
  match location with
  | none => { el with flagAdded := .failed }
  | some loc =>
      if loc == "" then { el with flagAdded := .failed }
      else if locationBlocked blockedCountries loc then
        if el.hasTweetContainer then
          if el.tweetBlocked then { el with flagAdded := .blocked }
          else { el with flagAdded := .blocked, tweetBlocked := true }
        else addFlagInsert el loc flagFor insertOk
      else addFlagInsert el loc flagFor insertOk

/-- The whole of `addFlagToUsername` (content.js:601-996) for one
element, given the location `resolvedLoc` with which a queued request
eventually settles.  On the proceed path the `finally` handler removes
the identity from `processingUsernames`.  The success path also
re-invokes the engine on elements marked `waiting` (content.js:966-974);
those calls touch only other elements and, with the identity still in
`processingUsernames`, never issue a lookup, so they are not folded into
this per-element function. -/
def addFlagFull (st : EngineState) (el : Elem) (flagAfterWait : FlagState)
    (u : String) (resolvedLoc : Option String) (blockedCountries : List String)
    (flagFor : String → Option String) (insertOk : Bool) :
    EngineState × Elem :=
  let a := addFlagPhaseA st el flagAfterWait u
  if !a.proceeding then (a.st, a.el)
  else
    let location : Option String :=
      match a.res with
      | some (.cachedHit l) => some l
      | some .queued => resolvedLoc
      | none => none
    let el1 := addFlagResolve a.el blockedCountries flagFor insertOk location
    ({ a.st with processing := a.st.processing.erase u }, el1)

/-- Model of `removeAllFlags` (content.js:999-1014): every
`[data-twitter-flag]` marker and every shimmer is removed from the page
and every `dataset.flagAdded` marker is deleted.  Neither
`dataset.observed` nor `data-twitter-blocked` is touched. -/
def removeAllFlags (page : List Elem) : List Elem :=
  page.map (fun el =>
    { el with markerCount := 0, shimmerCount := 0, flagAdded := .unset })

/-- Per-container step of `processUsernames` (content.js:1032-1058): a
container whose status is set and differs from `'failed'` is skipped; a
container already marked `observed` is skipped; otherwise, when it has a
UserName descendant or is an article, it is marked observed and handed
to `visibilityObserver.observe`. -/
def processContainer (el : Elem) : Elem :=
  if el.flagAdded != .unset && el.flagAdded != .failed then el
  else if el.observed then el
  else if el.hasUserName || el.isArticle then
    { el with observed := true, registered := true }
  else el

/-- Model of `processUsernames` (content.js:1017-1066): a no-op when the
extension is disabled, otherwise the per-container step over the page. -/
def processUsernames (enabled : Bool) (page : List Elem) : List Elem :=
  if enabled then page.map processContainer else page

/-- The `extensionToggle` branch of the message listener
(content.js:67-86): disabling runs `removeAllFlags`; enabling schedules
`processUsernames`. -/
def handleExtensionToggle (enabled : Bool) (page : List Elem) : List Elem :=
  if enabled then processUsernames true page else removeAllFlags page

/-! ## Helper lemmas -/

/-- Deferral branch of the synchronous prefix: an identity already in
`processingUsernames` leaves the module state untouched and parks the
element in the waiting state. -/
theorem addFlagPhaseA_deferral (st : EngineState) (el : Elem) (fw : FlagState)
    (u : String) (h1 : st.processing.contains u = true)
    (h2 : el.flagAdded ≠ FlagState.done) (h3 : fw ≠ FlagState.done) :
    addFlagPhaseA st el fw u =
      ⟨st, { el with flagAdded := FlagState.waiting }, false, none⟩ := by
  have h1m : u ∈ st.processing := by simpa using h1
  simp [addFlagPhaseA, h1m, h2, h3]

/-- The synchronous prefix never touches the marker count. -/
theorem addFlagPhaseA_markerCount (st : EngineState) (el : Elem)
    (fw : FlagState) (u : String) :
    (addFlagPhaseA st el fw u).el.markerCount = el.markerCount := by
  unfold addFlagPhaseA
  split
  · rfl
  · split
    · split
      · rfl
      · rfl
    · simp only []
      split
      · rfl
      · rfl

/-- Shimmer removal never touches the marker count. -/
theorem removeShimmer_markerCount (el : Elem) (b : Bool) :
    (removeShimmer el b).markerCount = el.markerCount := by
  unfold removeShimmer
  split <;> rfl

/-- The flag-insertion tail keeps the marker count at one or below. -/
theorem addFlagInsert_marker (el : Elem) (loc : String)
    (flagFor : String → Option String) (insertOk : Bool)
    (h : el.markerCount ≤ 1) :
    (addFlagInsert el loc flagFor insertOk).markerCount ≤ 1 := by
  unfold addFlagInsert
  rcases hf : flagFor loc with _ | f <;> simp only []
  · exact h
  · split
    · exact h
    · split
      · exact h
      · split
        · exact h
        · split
          · simp_all
          · exact h

/-- The post-resolution continuation keeps the marker count at one or
below. -/
theorem addFlagResolve_marker (el : Elem) (bc : List String)
    (flagFor : String → Option String) (insertOk : Bool)
    (location : Option String) (h : el.markerCount ≤ 1) :
    (addFlagResolve el bc flagFor insertOk location).markerCount ≤ 1 := by
  unfold addFlagResolve
  have hrs := removeShimmer_markerCount el el.hasUserName
  have hs : (removeShimmer el el.hasUserName).markerCount ≤ 1 := by omega
  rcases location with _ | loc <;> simp only []
  · exact hs
  · split
    · exact hs
    · split
      · split
        · split
          · exact hs
          · exact hs
        · exact addFlagInsert_marker _ _ _ _ hs
      · exact addFlagInsert_marker _ _ _ _ hs

/-! ## Claim theorems -/

/-- C1: when `addFlagToUsername` runs for an identity already in the
processing set, it defers the fragment to the waiting state and issues
no second request; hence two fragments for the same identity arriving in
the same scan batch (the second starting while the first is still in
flight) enqueue exactly one lookup. -/
theorem pendingSet_dedup_single_lookup :
    (∀ (st : EngineState) (el : Elem) (fw : FlagState) (u : String),
      st.processing.contains u = true → el.flagAdded ≠ FlagState.done →
      fw ≠ FlagState.done →
      addFlagPhaseA st el fw u =
        ⟨st, { el with flagAdded := FlagState.waiting }, false, none⟩) ∧
    (∀ (st : EngineState) (el1 el2 : Elem) (fw1 fw2 : FlagState) (u : String),
      st.processing.contains u = false → lookupAssoc st.cache u = none →
      el1.flagAdded ≠ FlagState.done → el2.flagAdded ≠ FlagState.done →
      fw2 ≠ FlagState.done →
      (addFlagPhaseA st el1 fw1 u).st.requestQueue = st.requestQueue ++ [u] ∧
      addFlagPhaseA (addFlagPhaseA st el1 fw1 u).st el2 fw2 u =
        ⟨(addFlagPhaseA st el1 fw1 u).st,
          { el2 with flagAdded := FlagState.waiting }, false, none⟩) := by
  constructor
  · exact addFlagPhaseA_deferral
  · intro st el1 el2 fw1 fw2 u h1 h2 h3 h4 h5
    have hg : getUserLocation st.cache u = (st.cache, LookupResult.queued) := by
      simp [getUserLocation, h2]
    have h1m : u ∉ st.processing := by simpa using h1
    have hst : (addFlagPhaseA st el1 fw1 u).st =
        { st with processing := u :: st.processing,
                  requestQueue := st.requestQueue ++ [u] } := by
      simp [addFlagPhaseA, h1m, h3, hg]
    refine ⟨by rw [hst], ?_⟩
    rw [hst]
    exact addFlagPhaseA_deferral _ el2 fw2 u (by simp) h4 h5

/-- Witness for C1 at the concrete identity `carol` with two fresh
fragments and an empty cache. -/
theorem pendingSet_dedup_single_lookup_witness :
    ((⟨[], [], []⟩ : EngineState).processing.contains "carol" = false ∧
      (addFlagPhaseA ⟨[], [], []⟩ ⟨.unset, true, false, 0, 0, true, true, true, true, false⟩
        FlagState.unset "carol").st.requestQueue = [] ++ ["carol"]) := by
  refine ⟨by decide, ?_⟩
  exact (pendingSet_dedup_single_lookup.2 ⟨[], [], []⟩
    ⟨.unset, true, false, 0, 0, true, true, true, true, false⟩
    ⟨.unset, true, false, 0, 0, true, true, true, true, false⟩
    FlagState.unset FlagState.unset "carol"
    (by decide) (by decide) (by decide) (by decide) (by decide)).1

/-- C2: a fragment already processed to done is a no-op for the engine:
`addFlagToUsername` returns immediately, leaving the module state (in
particular the request queue) and the element (in particular its marker)
untouched; moreover a full engine pass never pushes the number of
annotation markers of a fragment above one, and the scan skips done
fragments. -/
theorem done_rescan_noop_single_marker :
    (∀ (st : EngineState) (el : Elem) (fw : FlagState) (u : String)
      (rl : Option String) (bc : List String) (ff : String → Option String)
      (ins : Bool), el.flagAdded = FlagState.done →
      addFlagFull st el fw u rl bc ff ins = (st, el)) ∧
    (∀ (st : EngineState) (el : Elem) (fw : FlagState) (u : String)
      (rl : Option String) (bc : List String) (ff : String → Option String)
      (ins : Bool), el.markerCount ≤ 1 →
      (addFlagFull st el fw u rl bc ff ins).2.markerCount ≤ 1) ∧
    (∀ el : Elem, el.flagAdded = FlagState.done → processContainer el = el) := by
  refine ⟨?_, ?_, ?_⟩
  · intro st el fw u rl bc ff ins h
    simp [addFlagFull, addFlagPhaseA, h]
  · intro st el fw u rl bc ff ins h
    have hm := addFlagPhaseA_markerCount st el fw u
    unfold addFlagFull
    by_cases hp : (addFlagPhaseA st el fw u).proceeding
    · simp only [hp, Bool.not_true, Bool.false_eq_true, if_false]
      exact addFlagResolve_marker _ _ _ _ _ (by omega)
    · simp only [Bool.not_eq_true] at hp
      simp only [hp, Bool.not_false, if_true]
      omega
  · intro el h
    simp [processContainer, h]

/-- Witness for C2 at a concrete done fragment carrying one marker. -/
theorem done_rescan_noop_single_marker_witness :
    addFlagFull ⟨[], [], []⟩ ⟨.done, true, false, 1, 0, true, true, true, true, false⟩
        FlagState.unset "alice" (some "Tokyo, Japan") ["Japan"] (fun _ => some "jp") true =
      (⟨[], [], []⟩, ⟨.done, true, false, 1, 0, true, true, true, true, false⟩) ∧
    (addFlagFull ⟨[], [], []⟩ ⟨.done, true, false, 1, 0, true, true, true, true, false⟩
        FlagState.unset "alice" (some "Tokyo, Japan") ["Japan"] (fun _ => some "jp")
        true).2.markerCount ≤ 1 ∧
    processContainer ⟨.done, true, false, 1, 0, true, true, true, true, false⟩ =
      ⟨.done, true, false, 1, 0, true, true, true, true, false⟩ := by
  refine ⟨?_, ?_, ?_⟩
  · exact done_rescan_noop_single_marker.1 _ _ _ _ _ _ _ _ (by decide)
  · exact done_rescan_noop_single_marker.2.1 _
      ⟨.done, true, false, 1, 0, true, true, true, true, false⟩ _ _ _ _ _ _ (by decide)
  · exact done_rescan_noop_single_marker.2.2 _ (by decide)

/-- A fragment that had been processed to done: it carries one marker,
its `dataset.observed` is set, and it is no longer watched by the
visibility observer (the observer unregisters an element when it fires,
content.js:27). -/
def elemDoneObserved : Elem :=
  ⟨.done, true, false, 1, 0, true, true, true, true, false⟩

/-- C3: evaluation of the disable-then-enable round trip at a processed
fragment.  Disabling does remove the marker and reset `flagAdded`, but
because `dataset.observed` is never cleared the re-enabled scan skips
the fragment: it is not handed back to the visibility observer
(`registered` stays false), so the page is not reprocessed from
scratch. -/
theorem toggle_off_on_does_not_reprocess :
    handleExtensionToggle true (handleExtensionToggle false [elemDoneObserved]) =
      [{ elemDoneObserved with markerCount := 0, flagAdded := FlagState.unset }] ∧
    ({ elemDoneObserved with markerCount := 0, flagAdded := FlagState.unset } : Elem).registered = false ∧
    ({ elemDoneObserved with markerCount := 0, flagAdded := FlagState.unset } : Elem).observed = true := by
  decide

/-- A fragment whose processing failed: `dataset.flagAdded = 'failed'`,
`dataset.observed` set, no longer watched by the visibility observer. -/
def elemFailedObserved : Elem :=
  ⟨.failed, true, false, 0, 0, true, true, true, true, false⟩

/-- C4: evaluation of the scan at a failed fragment.  The first skip
condition of `processUsernames` deliberately lets `'failed'` through
(shown by the unobserved variant being re-registered), but the
`dataset.observed` guard then skips the fragment, so a failed fragment
that was already observed is never re-registered and never retried. -/
theorem failed_fragment_not_retried :
    processUsernames true [elemFailedObserved] = [elemFailedObserved] ∧
    elemFailedObserved.registered = false ∧
    processUsernames true [{ elemFailedObserved with observed := false }] =
      [{ elemFailedObserved with registered := true }] := by
  decide

/-- A non-null cache entry that is already past its expiry at clock value
10. -/
def staleEntry : CacheEntry := ⟨some "Tokyo, Japan", 5, 1⟩

/-- The in-memory cache holding only the stale entry. -/
def staleCache : LocationCache := [("alice", .obj staleEntry)]

/-- C5 counterexample: the in-memory cache check of `getUserLocation`
never consults `expiry`; an entry whose expiry (5) has already passed at
clock value 10 is still returned as a cache hit instead of being treated
as a miss. -/
theorem expired_entry_served_counterexample :
    staleEntry.expiry ≤ 10 ∧
    getUserLocation staleCache "alice" = (staleCache, .cachedHit "Tokyo, Japan") := by
  constructor
  · decide
  · rfl

/-- C5 (amended): the load-at-startup procedure discards entries whose
expiry has passed — every entry it populates the map with has a strictly
future expiry — while the in-memory lookup of `getUserLocation` returns
any cached non-null location without consulting expiry, and treats
null-location entries as misses. -/
theorem load_discards_expired_lookup_ignores_expiry :
    (∀ (now : Nat) (stored : List (String × StoredValue)) (u : String)
      (v : MemValue), (u, v) ∈ loadCache now stored →
      ∃ e : CacheEntry, v = .obj e ∧ now < e.expiry) ∧
    (∀ (cache : LocationCache) (u : String) (v : MemValue) (l : String),
      lookupAssoc cache u = some v → memLocation v = some l →
      getUserLocation cache u = (cache, .cachedHit l)) := by
  constructor
  · intro now stored u v hmem
    simp only [loadCache, List.mem_filterMap] at hmem
    obtain ⟨⟨u0, v0⟩, hm0, heq⟩ := hmem
    rcases hlv : loadCacheValue now v0 with _ | w
    · rw [hlv] at heq
      simp at heq
    · rw [hlv] at heq
      simp only [Option.map_some', Option.some.injEq, Prod.mk.injEq] at heq
      obtain ⟨rfl, rfl⟩ := heq
      rcases v0 with s | ⟨loc, exp, cat⟩
      · simp only [loadCacheValue, Option.some.injEq] at hlv
        exact ⟨⟨some s, now + cacheExpiryMs, now⟩, hlv.symm,
          Nat.lt_add_of_pos_right (by decide)⟩
      · rcases exp with _ | e
        · simp [loadCacheValue] at hlv
        · simp only [loadCacheValue] at hlv
          split at hlv
          · rename_i hcond
            simp only [Option.some.injEq] at hlv
            exact ⟨⟨loc, e, cat⟩, hlv.symm, hcond.1⟩
          · simp at hlv
  · intro cache u v l hv hl
    simp [getUserLocation, hv, hl]

/-- Witness for the amended C5: a legacy string entry loaded at clock 0
has a future expiry, and a concrete non-null hit is returned unchanged. -/
theorem load_discards_expired_lookup_ignores_expiry_witness :
    (∃ e : CacheEntry,
      (.obj ⟨some "Tokyo, Japan", 7, 1⟩ : MemValue) = .obj e ∧ 6 < e.expiry) ∧
    getUserLocation [("alice", .obj ⟨some "Tokyo, Japan", 7, 1⟩)] "alice" =
      ([("alice", .obj ⟨some "Tokyo, Japan", 7, 1⟩)], .cachedHit "Tokyo, Japan") := by
  constructor
  · exact load_discards_expired_lookup_ignores_expiry.1 6
      [("alice", .obj (some "Tokyo, Japan") (some 7) 1)] "alice" _ (by decide)
  · exact load_discards_expired_lookup_ignores_expiry.2
      [("alice", .obj ⟨some "Tokyo, Japan", 7, 1⟩)] "alice" _ "Tokyo, Japan" rfl rfl

/-- C6: the interval update of the response handler.  A soft rate limit
doubles `currentRequestInterval` up to `MAX_REQUEST_INTERVAL` and caches
nothing; a clean success lowers it by 100 down to
`INITIAL_REQUEST_INTERVAL`; and both updates keep it inside the interval
`[INITIAL_REQUEST_INTERVAL, MAX_REQUEST_INTERVAL]`. -/
theorem interval_update_rule :
    ∀ (now : Nat) (u : String) (loc : Option String) (interval : Nat)
      (cache : LocationCache),
      INITIAL_REQUEST_INTERVAL ≤ interval → interval ≤ MAX_REQUEST_INTERVAL →
      (settleRequest now u (.response loc true) interval cache).interval =
          min MAX_REQUEST_INTERVAL (interval * 2) ∧
      (settleRequest now u (.response loc true) interval cache).cache = cache ∧
      (settleRequest now u (.response loc false) interval cache).interval =
          max INITIAL_REQUEST_INTERVAL (interval - 100) ∧
      (∀ b : Bool,
        INITIAL_REQUEST_INTERVAL ≤
            (settleRequest now u (.response loc b) interval cache).interval ∧
          (settleRequest now u (.response loc b) interval cache).interval ≤
            MAX_REQUEST_INTERVAL) := by
  intro now u loc interval cache hlo hhi
  refine ⟨rfl, rfl, ?_, ?_⟩
  · show updateIntervalOnResponse false interval =
      max INITIAL_REQUEST_INTERVAL (interval - 100)
    unfold updateIntervalOnResponse
    rw [if_neg (show ¬(false = true) by decide)]
    simp only [INITIAL_REQUEST_INTERVAL] at *
    split <;> omega
  · intro b
    show INITIAL_REQUEST_INTERVAL ≤ updateIntervalOnResponse b interval ∧
      updateIntervalOnResponse b interval ≤ MAX_REQUEST_INTERVAL
    unfold updateIntervalOnResponse
    simp only [INITIAL_REQUEST_INTERVAL, MAX_REQUEST_INTERVAL] at *
    cases b
    · rw [if_neg (show ¬(false = true) by decide)]
      split <;> omega
    · rw [if_pos rfl]
      omega

/-- Witness for C6 at the floor interval 300: a soft rate limit doubles
it to 600 with nothing cached, and a clean success keeps it at the
floor. -/
theorem interval_update_rule_witness :
    (settleRequest 0 "bob" (.response (some "Japan") true) 300 []).interval =
        min MAX_REQUEST_INTERVAL (300 * 2) ∧
    (settleRequest 0 "bob" (.response (some "Japan") true) 300 []).cache = [] ∧
    (settleRequest 0 "bob" (.response (some "Japan") false) 300 []).interval =
        max INITIAL_REQUEST_INTERVAL (300 - 100) ∧
    (∀ b : Bool,
      INITIAL_REQUEST_INTERVAL ≤
          (settleRequest 0 "bob" (.response (some "Japan") b) 300 []).interval ∧
        (settleRequest 0 "bob" (.response (some "Japan") b) 300 []).interval ≤
          MAX_REQUEST_INTERVAL) :=
  interval_update_rule 0 "bob" (some "Japan") 300 [] (by decide) (by decide)

/-- Every reachable scheduler state satisfies the inductive invariant. -/
theorem schedInv_of_reachable : ∀ s : SchedState, SchedReachable s → SchedInv s := by
  intro s hs
  induction hs with
  | init =>
      refine ⟨by decide, ?_, ?_⟩
      · intro iv h
        simp [initSchedState] at h
      · intro p hp
        simp [initSchedState] at hp
  | step s t _ hstep ih =>
      obtain ⟨ih1, ih2, ih3⟩ := ih
      cases hstep with
      | enqueue u =>
          refine ⟨ih1, ?_, ih3⟩
          intro iv h
          exact ⟨(ih2 iv h).1, by simp⟩
      | tick d => exact ⟨ih1, ih2, ih3⟩
      | adjustInterval i => exact ⟨ih1, ih2, ih3⟩
      | beginIter hq hc hph =>
          refine ⟨ih1, ?_, ih3⟩
          intro iv h
          exact ⟨hc, hq⟩
      | start u rest iv hq hph hp =>
          refine ⟨?_, ?_, ?_⟩
          · have := (ih2 iv hph).1
            simp only [MAX_CONCURRENT_REQUESTS] at this ⊢
            omega
          · intro iv' h
            simp at h
          · intro p hp2
            simp only [List.mem_cons] at hp2
            rcases hp2 with rfl | hp2
            · simp only []
              omega
            · exact ih3 p hp2
      | finish h =>
          refine ⟨?_, ?_, ih3⟩
          · simp only [MAX_CONCURRENT_REQUESTS] at ih1 ⊢
            omega
          · intro iv h2
            obtain ⟨hlt, hne⟩ := ih2 iv h2
            simp only [MAX_CONCURRENT_REQUESTS] at hlt ⊢
            exact ⟨by omega, hne⟩

/-- The scheduler state just before the second dequeue of the race
trace: `bob` started at time 300, the pacing sleep for `carol` was
computed while `currentRequestInterval` was still 300, and the response
to `bob` then doubled the interval to 600 during the sleep. -/
def schedRaceState : SchedState :=
  ⟨["carol"], 1, 300, 600, 600, .sleeping 300, [(300, 300)]⟩

/-- The state after the second dequeue of the race trace: `carol`
started at time 600, only 300 ms after `bob`, with
`currentRequestInterval` at 600. -/
def schedRaceNext : SchedState :=
  ⟨[], 2, 600, 600, 600, .idle, [(300, 300), (300, 300)]⟩

/-- C7 counterexample: a reachable drain-loop trace in which a request
starts sooner than `currentRequestInterval` milliseconds after the
previous request start.  The sleep for the second dequeue is computed
from the pre-await interval (300) and the dequeue is unconditional
after the await (content.js:250-259), so when a soft rate limit doubles
the interval to 600 during the sleep (content.js:309) the second
request starts with a gap of 300 < 600. -/
theorem scheduler_fire_time_pacing_counterexample :
    SchedReachable schedRaceState ∧
    SchedStep schedRaceState schedRaceNext ∧
    schedRaceState.activeRequests < schedRaceNext.activeRequests ∧
    schedRaceNext.lastRequestTime - schedRaceState.lastRequestTime <
      schedRaceState.currentInterval := by
  refine ⟨?_, ?_, by decide, by decide⟩
  · have h0 : SchedReachable (⟨[], 0, 0, 300, 0, .idle, []⟩ : SchedState) :=
      SchedReachable.init
    have h1 : SchedReachable (⟨["bob"], 0, 0, 300, 0, .idle, []⟩ : SchedState) :=
      SchedReachable.step _ _ h0 (SchedStep.enqueue _ "bob")
    have h2 : SchedReachable
        (⟨["bob", "carol"], 0, 0, 300, 0, .idle, []⟩ : SchedState) :=
      SchedReachable.step _ _ h1 (SchedStep.enqueue _ "carol")
    have h3 : SchedReachable
        (⟨["bob", "carol"], 0, 0, 300, 0, .sleeping 300, []⟩ : SchedState) :=
      SchedReachable.step _ _ h2
        (SchedStep.beginIter _ (by decide) (by decide) rfl)
    have h4 : SchedReachable
        (⟨["bob", "carol"], 0, 0, 300, 300, .sleeping 300, []⟩ : SchedState) :=
      SchedReachable.step _ _ h3 (SchedStep.tick _ 300)
    have h5 : SchedReachable
        (⟨["carol"], 1, 300, 300, 300, .idle, [(300, 300)]⟩ : SchedState) :=
      SchedReachable.step _ _ h4
        (SchedStep.start _ "bob" ["carol"] 300 rfl rfl (by decide))
    have h6 : SchedReachable
        (⟨["carol"], 1, 300, 300, 300, .sleeping 300, [(300, 300)]⟩ : SchedState) :=
      SchedReachable.step _ _ h5
        (SchedStep.beginIter _ (by decide) (by decide) rfl)
    have h7 : SchedReachable
        (⟨["carol"], 1, 300, 600, 300, .sleeping 300, [(300, 300)]⟩ : SchedState) :=
      SchedReachable.step _ _ h6 (SchedStep.adjustInterval _ 600)
    exact SchedReachable.step _ _ h7 (SchedStep.tick _ 300)
  · exact SchedStep.start _ "carol" [] 300 rfl rfl (by decide)

/-- C7 (amended): in every reachable drain-loop state the number of
in-flight requests never exceeds `MAX_CONCURRENT_REQUESTS` (2), and
every request start so far has a gap to the previous start of at least
the interval captured when its pacing wait was computed; that captured
interval is the value `currentRequestInterval` has when the loop enters
the sleep.  Spacing below the value `currentRequestInterval` holds at
fire time remains possible when the interval is raised during the
sleep, as the counterexample exhibits. -/
theorem scheduler_concurrency_and_pacing :
    (∀ s : SchedState, SchedReachable s →
      s.activeRequests ≤ MAX_CONCURRENT_REQUESTS ∧
      ∀ p ∈ s.startLog, p.2 ≤ p.1) ∧
    (∀ s t : SchedState, SchedStep s t → ∀ iv : Nat,
      t.phase = .sleeping iv → s.phase = .idle → iv = s.currentInterval) := by
  constructor
  · intro s hs
    have hinv := schedInv_of_reachable s hs
    exact ⟨hinv.1, hinv.2.2⟩
  · intro s t hstep iv hph hidle
    cases hstep with
    | enqueue u => rw [hidle] at hph; cases hph
    | tick d => rw [hidle] at hph; cases hph
    | adjustInterval i => rw [hidle] at hph; cases hph
    | beginIter hq hc hph2 =>
        have : DrainPhase.sleeping s.currentInterval = DrainPhase.sleeping iv := hph
        cases this
        rfl
    | start u rest iv2 hq hph2 hp => cases hph
    | finish h => rw [hidle] at hph; cases hph

/-- Witness for the amended C7: the trace that enqueues `bob`, enters
the pacing sleep, waits 300 ms and starts the request reaches a state
whose single logged start respects its captured interval; and the
sleep entered from that state captures the then-current interval. -/
theorem scheduler_concurrency_and_pacing_witness :
    ((⟨[], 1, 300, 300, 300, .idle, [(300, 300)]⟩ : SchedState).activeRequests ≤
        MAX_CONCURRENT_REQUESTS ∧
      ∀ p ∈ (⟨[], 1, 300, 300, 300, .idle,
          [(300, 300)]⟩ : SchedState).startLog, p.2 ≤ p.1) ∧
    (300 : Nat) =
      (⟨["carol"], 1, 300, 300, 300, .idle, []⟩ : SchedState).currentInterval := by
  constructor
  · refine scheduler_concurrency_and_pacing.1 _ ?_
    have h0 : SchedReachable (⟨[], 0, 0, 300, 0, .idle, []⟩ : SchedState) :=
      SchedReachable.init
    have h1 : SchedReachable (⟨["bob"], 0, 0, 300, 0, .idle, []⟩ : SchedState) :=
      SchedReachable.step _ _ h0 (SchedStep.enqueue _ "bob")
    have h2 : SchedReachable (⟨["bob"], 0, 0, 300, 0, .sleeping 300, []⟩ : SchedState) :=
      SchedReachable.step _ _ h1
        (SchedStep.beginIter _ (by decide) (by decide) rfl)
    have h3 : SchedReachable (⟨["bob"], 0, 0, 300, 300, .sleeping 300, []⟩ : SchedState) :=
      SchedReachable.step _ _ h2 (SchedStep.tick _ 300)
    exact SchedReachable.step _ _ h3
      (SchedStep.start _ "bob" [] 300 rfl rfl (by decide))
  · exact scheduler_concurrency_and_pacing.2
      (⟨["carol"], 1, 300, 300, 300, .idle, []⟩ : SchedState)
      (⟨["carol"], 1, 300, 300, 300, .sleeping 300, []⟩ : SchedState)
      (SchedStep.beginIter _ (by decide) (by decide) rfl) 300 rfl rfl

/-- C8: a request whose 10 second timeout fires resolves with null,
writes nothing to the cache (the whole map, hence the entry for that
identity, is unchanged, so the next scan may retry), and the `finally`
handler releases the concurrency slot by decrementing
`activeRequests`. -/
theorem timeout_resolves_null_without_caching :
    (∀ (now : Nat) (u : String) (interval : Nat) (cache : LocationCache),
      settleRequest now u .timeout interval cache =
        { resolved := none, interval := interval, cache := cache }) ∧
    (∀ s : SchedState, 0 < s.activeRequests →
      SchedStep s { s with activeRequests := s.activeRequests - 1 }) := by
  exact ⟨fun _ _ _ _ => rfl, fun s h => SchedStep.finish s h⟩

/-- Witness for C8 at the identity `bob` with one active request. -/
theorem timeout_resolves_null_without_caching_witness :
    settleRequest 0 "bob" .timeout 300 [] =
      { resolved := none, interval := 300, cache := [] } ∧
    SchedStep ⟨[], 1, 0, 300, 0, .idle, []⟩ ⟨[], 0, 0, 300, 0, .idle, []⟩ :=
  ⟨timeout_resolves_null_without_caching.1 0 "bob" 300 [],
    timeout_resolves_null_without_caching.2 ⟨[], 1, 0, 300, 0, .idle, []⟩
      (by decide)⟩

/-- A fragment whose UserName container holds a single link to the
numeric path `/12345`. -/
def numericIdFragment : Fragment :=
  ⟨true, [⟨"/12345", "12345", true⟩], ""⟩

/-- C9 counterexample: the priority-1 name/handle-container path applies
no numeric-ID or status-shape exclusion, so `extractUsername` returns
the purely numeric token `12345` from a UserName container link. -/
theorem extract_numeric_from_container_counterexample :
    extractUsername numericIdFragment = some "12345" ∧
    isNumericId "12345" = true := by
  constructor
  · rfl
  · rfl

/-- C9 (amended): the numeric-ID and status-shape exclusions are applied
on the broader any-link search path: a token returned by that pass is
never purely numeric and never contains `status`.  The priority-1
container path performs only the route/prefix/length filtering and can
return a numeric token, as the counterexample shows. -/
theorem broader_search_excludes_numeric_and_status :
    ∀ (ls : List Link) (seen : List String) (u : String),
      findInAllLinks seen ls = some u →
      isNumericId u = false ∧ subOccurs "status".toList u.toList = false := by
  intro ls
  induction ls with
  | nil => intro seen u h; simp [findInAllLinks] at h
  | cons l ls ih =>
      intro seen u h
      rw [findInAllLinks] at h
      split at h
      · exact ih seen u h
      · rename_i u0 hseg
        split at h
        · exact ih seen u h
        · split at h
          · exact ih _ u h
          · split at h
            · exact ih _ u h
            · rename_i hns
              split at h
              · rename_i hmatch
                simp only [Option.some.injEq] at h
                subst h
                simp only [Bool.or_eq_true, not_or, Bool.not_eq_true] at hns
                exact ⟨hns.2, hns.1⟩
              · exact ih _ u h

/-- Witness for the amended C9: the broader pass returns `alice` from a
plain `@alice` link, and `alice` is neither numeric nor
status-shaped. -/
theorem broader_search_excludes_numeric_and_status_witness :
    isNumericId "alice" = false ∧
      subOccurs "status".toList "alice".toList = false :=
  broader_search_excludes_numeric_and_status
    [⟨"/alice", "@alice", false⟩] [] "alice" rfl

/-- C10: a negative (null) lookup result is never served as a later hit
and never reaches durable storage: `getUserLocation` deletes a cached
null entry and queues a fresh lookup, `saveCache` omits every
null-location entry from the durable write, and `loadCache` never
populates the map with a null-location value. -/
theorem negative_result_never_served_or_persisted :
    (∀ (cache : LocationCache) (u : String) (e : CacheEntry),
      lookupAssoc cache u = some (.obj e) → e.location = none →
      getUserLocation cache u = (eraseAssoc cache u, .queued)) ∧
    (∀ (now : Nat) (cache : LocationCache) (u : String) (e : CacheEntry),
      (u, e) ∈ saveCache now cache → e.location ≠ none) ∧
    (∀ (now : Nat) (stored : List (String × StoredValue)) (u : String)
      (v : MemValue), (u, v) ∈ loadCache now stored →
      memLocation v ≠ none) := by
  refine ⟨?_, ?_, ?_⟩
  · intro cache u e hv hl
    simp [getUserLocation, hv, memLocation, hl]
  · intro now cache u e hmem
    simp only [saveCache, List.mem_filterMap] at hmem
    obtain ⟨⟨u0, v0⟩, hm0, heq⟩ := hmem
    rcases v0 with s | e0
    · simp only [Option.some.injEq, Prod.mk.injEq] at heq
      obtain ⟨rfl, rfl⟩ := heq
      simp
    · simp only [] at heq
      split at heq
      · rename_i htr
        simp only [Option.some.injEq, Prod.mk.injEq] at heq
        obtain ⟨rfl, rfl⟩ := heq
        intro hnone
        rw [hnone] at htr
        simp [isTruthy] at htr
      · simp at heq
  · intro now stored u v hmem
    simp only [loadCache, List.mem_filterMap] at hmem
    obtain ⟨⟨u0, v0⟩, hm0, heq⟩ := hmem
    rcases hlv : loadCacheValue now v0 with _ | w
    · rw [hlv] at heq
      simp at heq
    · rw [hlv] at heq
      simp only [Option.map_some', Option.some.injEq, Prod.mk.injEq] at heq
      obtain ⟨rfl, rfl⟩ := heq
      rcases v0 with s | ⟨loc, exp, cat⟩
      · simp only [loadCacheValue, Option.some.injEq] at hlv
        rw [← hlv]
        simp [memLocation]
      · rcases exp with _ | e0
        · simp [loadCacheValue] at hlv
        · simp only [loadCacheValue] at hlv
          split at hlv
          · rename_i hcond
            simp only [Option.some.injEq] at hlv
            rw [← hlv]
            simpa [memLocation] using hcond.2
          · simp at hlv

/-- Witness for C10 at a concrete null entry for `bob`, a one-entry map
and a one-entry stored object. -/
theorem negative_result_never_served_or_persisted_witness :
    getUserLocation [("bob", .obj ⟨none, 99, 1⟩)] "bob" =
      (eraseAssoc [("bob", .obj ⟨none, 99, 1⟩)] "bob", .queued) ∧
    (⟨some "Tokyo, Japan", 99, 1⟩ : CacheEntry).location ≠ none := by
  constructor
  · exact negative_result_never_served_or_persisted.1
      [("bob", .obj ⟨none, 99, 1⟩)] "bob" ⟨none, 99, 1⟩ rfl rfl
  · exact negative_result_never_served_or_persisted.2.1 0
      [("alice", .obj ⟨some "Tokyo, Japan", 99, 1⟩)] "alice"
      ⟨some "Tokyo, Japan", 99, 1⟩ (by decide)

end XGeoBlock
